import Mathlib

/-!
Verification of the retrieval/reranking core of a local RAG pipeline
(`backend/src`): text chunking, embedding, vector-store backends (FAISS
flat inner-product index and Chroma collection), cross-encoder reranking,
and the orchestrating `RAGService`.

External collaborators (the langchain recursive splitter, the
sentence-transformers encoder and cross-encoder, the FAISS and Chroma
native libraries, the Ollama generation backend, and uuid generation)
are modelled as explicit oracle parameters, per their documented
contracts; floating-point numbers are modelled as rationals, and the
irrational L2-normalisation / cosine-distance kernels inside the native
libraries are abstracted as function parameters (none of the verified
properties depend on the numeric values they produce).
-/

set_option linter.unusedVariables false

/-- Metadata values stored in chunk / record metadata dictionaries
(Python dict values; only primitives occur in this pipeline). -/
inductive MVal where
  | str (s : String)
  | nat (n : Nat)
deriving DecidableEq, Repr

/-- A Python dict with string keys, modelled as an association list. -/
def Dict := List (String × MVal)
deriving DecidableEq

instance : Append Dict := ⟨List.append⟩

/-- Lookup a key in a dict (`d.get(k)` / `d[k]` when present). -/
def dictGet (d : Dict) (k : String) : Option MVal :=
  (List.find? (fun p => p.1 == k) d).map (·.2)

/-- `d.get(k, default)`. -/
def dictGetD (d : Dict) (k : String) (v : MVal) : MVal :=
  (dictGet d k).getD v

/-- `{**d, k: v}`: the dict whose lookup at `k` is `v` and elsewhere
agrees with `d`. -/
def dictInsert (d : Dict) (k : String) (v : MVal) : Dict :=
  List.filter (fun p => p.1 != k) d ++ [(k, v)]

theorem find?_filter_ne (d : List (String × MVal)) (k : String) :
    List.find? (fun p => p.1 == k) (List.filter (fun p => p.1 != k) d) = none := by
  induction d with
  | nil => rfl
  | cons p d ih =>
    by_cases h : p.1 = k
    · simp [List.filter_cons, h, ih]
    · simp [List.filter_cons, h, List.find?_cons, ih]

theorem find?_filter_other (d : List (String × MVal)) (k k' : String)
    (hne : k' ≠ k) :
    List.find? (fun p => p.1 == k') (List.filter (fun p => p.1 != k) d) =
      List.find? (fun p => p.1 == k') d := by
  have hkk : (k == k') = false := by
    simpa using fun hc => hne hc.symm
  induction d with
  | nil => rfl
  | cons p d ih =>
    by_cases h : p.1 = k
    · have h2 : p.1 ≠ k' := fun hc => hne (hc.symm.trans h)
      have h2' : (p.1 == k') = false := by simpa using h2
      simp [List.filter_cons, h, List.find?_cons, h2', hkk, ih]
    · by_cases h2 : p.1 = k'
      · simp [List.filter_cons, h, List.find?_cons, h2, hne, ih]
      · have h2' : (p.1 == k') = false := by simpa using h2
        simp [List.filter_cons, h, List.find?_cons, h2', ih]

theorem dictGet_insert_same (d : Dict) (k : String) (v : MVal) :
    dictGet (dictInsert d k v) k = some v := by
  unfold dictGet dictInsert
  rw [List.find?_append, find?_filter_ne]
  simp [List.find?_cons]

theorem dictGet_insert_other (d : Dict) (k k' : String) (v : MVal)
    (hne : k' ≠ k) : dictGet (dictInsert d k v) k' = dictGet d k' := by
  unfold dictGet dictInsert
  rw [List.find?_append, find?_filter_other d k k' hne]
  cases hfind : List.find? (fun p => p.1 == k') d with
  | none =>
    have hkk : (k == k') = false := by
      simpa using fun hc => hne hc.symm
    simp [List.find?_cons, hkk]
  | some p => simp

/-- An embedding vector (floats modelled as rationals). -/
def Emb := List ℚ
deriving DecidableEq

/-- Inner product of two vectors (FAISS `IndexFlatIP` scoring). -/
def dotProduct (a b : Emb) : ℚ :=
  (List.zipWith (· * ·) a b).sum

/-- Python's `str.strip()`: drop leading and trailing whitespace. -/
def stripStr (s : String) : String :=
  String.mk (((s.data.dropWhile Char.isWhitespace).reverse.dropWhile
    Char.isWhitespace).reverse)

/-- A chunk produced by `TextSplitterTool.split`: a content string plus a
metadata dict (`{"content": ..., "metadata": {...}}` in the source). -/
structure ChunkD where
  content : String
  metadata : Dict
deriving DecidableEq

namespace TextSplitterTool

/-- `TextSplitterTool.split` (`text_splitter_tool.py`).  The langchain
`RecursiveCharacterTextSplitter.create_documents` call is external library
code; it is modelled by the oracle `createDocs : String → Except String
(List String)`, which returns the page contents of the produced documents
(each carrying a copy of the supplied metadata, per langchain's contract)
or raises.  The source returns `[]` for empty or whitespace-only input
before consulting the splitter, then stamps each chunk with its 0-based
index and the total count, merged over the caller metadata. -/
def split (createDocs : String → Except String (List String))
    (text : String) (metadata : Dict) : Except String (List ChunkD) :=
  if text = "" || stripStr text = "" then .ok []
  else
    match createDocs text with
    | .error e => .error e
    | .ok chunks =>
        .ok (chunks.enum.map (fun p =>
          { content := p.2
            metadata :=
              dictInsert (dictInsert metadata "chunk_index" (.nat p.1))
                "chunk_total" (.nat chunks.length) }))

/-- `TextSplitterTool.split_batch` (`text_splitter_tool.py`).  Mirrors the
source exactly: an empty `texts` list returns `[]` immediately (before any
length check); a missing metadata list — and, because Python's `or` treats
`[]` as falsy, an empty one — is replaced by one empty dict per text; only
then is the length mismatch checked. -/
def split_batch (createDocs : String → Except String (List String))
    (texts : List String) (metadatas : Option (List Dict)) :
    Except String (List (List ChunkD)) :=
  if texts = [] then .ok []
  else
    let ms : List Dict :=
      match metadatas with
      | none => texts.map (fun _ => ([] : Dict))
      | some [] => texts.map (fun _ => ([] : Dict))
      | some ms => ms
    if ms.length ≠ texts.length then
      .error "metadatas must have same length as texts"
    else
      (texts.zip ms).mapM (fun p => split createDocs p.1 p.2)

end TextSplitterTool

namespace EmbeddingTool

/-- `EmbeddingTool.embed` (`embedding_tool.py`).  The sentence-transformers
model is external; `encode` is its oracle (a failing call corresponds to
the wrapped `EmbeddingError`).  An empty batch returns `[]` without
consulting the model. -/
def embed (encode : List String → Except String (List Emb))
    (texts : List String) : Except String (List Emb) :=
  if texts = [] then .ok []
  else
    match encode texts with
    | .ok embs => .ok embs
    | .error e => .error ("Failed to generate embeddings: " ++ e)

/-- `EmbeddingTool.embed_query` (`embedding_tool.py`): runs `embed` on the
single-text batch and returns `embeddings[0] if embeddings else []`. -/
def embed_query (encode : List String → Except String (List Emb))
    (text : String) : Except String Emb :=
  match embed encode [text] with
  | .error e => .error e
  | .ok embs =>
      .ok (match embs with
        | [] => ([] : Emb)
        | e :: _ => e)

end EmbeddingTool

/-- The relation by which Python's stable `sort(key=score, reverse=True)`
orders `(index, score)` pairs: earlier element has the larger-or-equal
score.  Python's sort is stable; `List.insertionSort` with this relation
is the stable descending sort. -/
def descBySnd : (Nat × ℚ) → (Nat × ℚ) → Prop :=
  fun a b => b.2 ≤ a.2

instance : DecidableRel descBySnd := fun a b => Rat.instDecidableLe b.2 a.2

instance : IsTotal (Nat × ℚ) descBySnd := ⟨fun a b => le_total b.2 a.2⟩

instance : IsTrans (Nat × ℚ) descBySnd :=
  ⟨fun _ _ _ h1 h2 => le_trans h2 h1⟩

namespace RerankerTool

/-- `RerankerTool.rerank` (`reranker_tool.py`).  The cross-encoder model is
external; `predict` is its oracle, mapping the `(query, document)` pairs to
relevance scores (a failing call corresponds to the wrapped
`RerankerError`).  An empty document list returns `[]` before the model is
even loaded.  `cfgTopK` is `settings.top_k_rerank`, the default used when
`top_k` is `None`. -/
def rerank (predict : List (String × String) → Except String (List ℚ))
    (cfgTopK : Nat) (query : String) (documents : List String)
    (top_k : Option Nat) : Except String (List (Nat × ℚ)) :=
  if documents = [] then .ok []
  else
    let k := top_k.getD cfgTopK
    match predict (documents.map (fun d => (query, d))) with
    | .error e => .error ("Failed to rerank documents: " ++ e)
    | .ok scores =>
        .ok ((List.insertionSort descBySnd scores.enum).take k)

end RerankerTool

/-- A search result returned by the vector stores:
`{"id": ..., "text": ..., "metadata": ..., "score": ...}`. -/
structure SearchResult where
  id : String
  text : String
  metadata : Dict
  score : ℚ
deriving DecidableEq

/-- The state of `FaissVectorStore` (`vector_store_tool.py`): the FAISS
`IndexFlatIP` contents (one stored vector per added record) plus the three
side tables `_texts`, `_metadata`, `_ids`.  `ntotal` of the native index
is `vecs.length`.  On-disk persistence (`_save`/`_load`) is out of scope
of the verified claims and not modelled. -/
structure FaissStore where
  vecs : List Emb
  texts : List String
  metadata : List Dict
  ids : List String
deriving DecidableEq

/-- A freshly constructed (or never-populated) FAISS store. -/
def FaissStore.empty : FaissStore := ⟨[], [], [], []⟩

namespace FaissVectorStore

/-- `FaissVectorStore.add` (`vector_store_tool.py`).  `normalize` abstracts
the numpy L2-normalisation (with the zero-norm-mapped-to-1 guard), whose
square roots are not rational; none of the verified properties depend on
its values.  `idGen` abstracts `uuid.uuid4()`: the i-th generated id for
this call is `idGen i`.  Returns the generated ids and the new store. -/
def add (normalize : Emb → Emb) (idGen : Nat → String)
    (texts : List String) (embeddings : List Emb) (metadata : List Dict)
    (s : FaissStore) : List String × FaissStore :=
  if texts = [] then ([], s)
  else
    let ids := (List.range texts.length).map idGen
    let normalized := embeddings.map normalize
    (ids,
      { vecs := s.vecs ++ normalized
        texts := s.texts ++ texts
        metadata := s.metadata ++ metadata
        ids := s.ids ++ ids })

/-- The native FAISS `IndexFlatIP.search` contract for `k ≤ ntotal`:
score every stored vector against the (normalised) query by inner
product and return the `k` best `(position, score)` pairs, scores
non-increasing. -/
def indexFlatIPSearch (vecs : List Emb) (q : Emb) (k : Nat) :
    List (Nat × ℚ) :=
  (List.insertionSort descBySnd
    (vecs.enum.map (fun p => (p.1, dotProduct p.2 q)))).take k

/-- `FaissVectorStore.search` (`vector_store_tool.py`).  `qnormalize`
abstracts the query-side normalisation (`q / ||q||` when the norm is
positive).  An empty index returns `[]`; otherwise the native index is
searched with `min top_k ntotal` and each hit position with
`idx < len(self._texts)` is resolved through the side tables. -/
def search (qnormalize : Emb → Emb) (q : Emb) (top_k : Nat)
    (s : FaissStore) : List SearchResult :=
  if s.vecs.length = 0 then []
  else
    let qn := qnormalize q
    let hits := indexFlatIPSearch s.vecs qn (min top_k s.vecs.length)
    hits.filterMap (fun p =>
      if p.1 < s.texts.length then
        some
          { id := (s.ids.getD p.1 "")
            text := (s.texts.getD p.1 "")
            metadata := (s.metadata.getD p.1 ([] : Dict))
            score := p.2 }
      else none)

/-- `FaissVectorStore.delete_all` (`vector_store_tool.py`): replaces the
index with a fresh `IndexFlatIP` of the same dimension and clears the
side tables. -/
def delete_all (s : FaissStore) : FaissStore := FaissStore.empty

end FaissVectorStore

/-- One record of the Chroma collection: id, document text, metadata and
the stored embedding. -/
structure ChromaRecord where
  id : String
  text : String
  metadata : Dict
  emb : Emb
deriving DecidableEq

/-- The state of `ChromaVectorStore` (`vector_store_tool.py`): the
collection contents, in insertion order. -/
structure ChromaStore where
  records : List ChromaRecord
deriving DecidableEq

/-- A freshly created (or fully deleted) Chroma collection. -/
def ChromaStore.empty : ChromaStore := ⟨[]⟩

namespace ChromaVectorStore

/-- The metadata-cleaning loop of `ChromaVectorStore.add`: primitive
values (`str`/`int`/`float`/`bool`) are kept, anything else is coerced to
its string form.  Our `MVal` carries only primitives, so every value is
kept as-is. -/
def cleanMeta (meta : Dict) : Dict :=
  meta.map (fun p =>
    match p.2 with
    | MVal.str s => (p.1, MVal.str s)
    | MVal.nat n => (p.1, MVal.nat n))

/-- `ChromaVectorStore.add` (`vector_store_tool.py`): generates one fresh
id per text (`idGen` abstracts `uuid.uuid4()`), cleans the metadata, and
appends the records to the collection. -/
def add (idGen : Nat → String) (texts : List String)
    (embeddings : List Emb) (metadata : List Dict) (c : ChromaStore) :
    List String × ChromaStore :=
  if texts = [] then ([], c)
  else
    let ids := (List.range texts.length).map idGen
    let recs :=
      (ids.zip ((texts.zip ((metadata.map cleanMeta).zip embeddings)))).map
        (fun p => ChromaRecord.mk p.1 p.2.1 p.2.2.1 p.2.2.2)
    (ids, ⟨c.records ++ recs⟩)

/-- The relation by which the native Chroma query orders records for one
query embedding: non-decreasing cosine distance (`dist` abstracts the
backend's cosine-distance kernel, which is irrational in general). -/
def ascByDist (dist : Emb → Emb → ℚ) (q : Emb) :
    ChromaRecord → ChromaRecord → Prop :=
  fun a b => dist q a.emb ≤ dist q b.emb

instance (dist : Emb → Emb → ℚ) (q : Emb) :
    DecidableRel (ascByDist dist q) :=
  fun a b => Rat.instDecidableLe (dist q a.emb) (dist q b.emb)

instance (dist : Emb → Emb → ℚ) (q : Emb) :
    IsTotal ChromaRecord (ascByDist dist q) :=
  ⟨fun a b => le_total (dist q a.emb) (dist q b.emb)⟩

instance (dist : Emb → Emb → ℚ) (q : Emb) :
    IsTrans ChromaRecord (ascByDist dist q) :=
  ⟨fun _ _ _ h1 h2 => le_trans h1 h2⟩

/-- The native `collection.query` contract: return the `min n_results
count` records nearest to the query embedding, ordered by non-decreasing
cosine distance, each with its distance. -/
def collectionQuery (dist : Emb → Emb → ℚ) (q : Emb) (nResults : Nat)
    (c : ChromaStore) : List (ChromaRecord × ℚ) :=
  ((List.insertionSort (ascByDist dist q) c.records).take nResults).map
    (fun r => (r, dist q r.emb))

/-- `ChromaVectorStore.search` (`vector_store_tool.py`): queries the
collection and converts each cosine distance to a similarity score via
`similarity = 1 - distance`, so higher is more similar. -/
def search (dist : Emb → Emb → ℚ) (q : Emb) (top_k : Nat)
    (c : ChromaStore) : List SearchResult :=
  (collectionQuery dist q top_k c).map (fun p =>
    { id := p.1.id
      text := p.1.text
      metadata := p.1.metadata
      score := 1 - p.2 })

/-- `ChromaVectorStore.delete_all` (`vector_store_tool.py`): fetches all
ids and deletes them, leaving the collection empty. -/
def delete_all (c : ChromaStore) : ChromaStore := ChromaStore.empty

end ChromaVectorStore

/-- Modelled from the spec: the `IngestResponse` model
(`src.models.rag`, not included in the sources) —
`ingest(bytes, filename) -> {doc_id, filename, chunk_count, status:
"success"|"error", message}`. -/
structure IngestResponse where
  doc_id : String
  filename : String
  chunk_count : Nat
  status : String
  message : String
deriving DecidableEq

/-- Modelled from the spec: the `QueryRequest` model (`src.models.rag`,
not included in the sources) — a query text plus an optional `top_k`
override for the rerank stage. -/
structure QueryRequest where
  query : String
  top_k : Option Nat
deriving DecidableEq

/-- Modelled from the spec: the `Source` citation model (`src.models.rag`,
not included in the sources) — `{chunk_id, doc_id, filename, content,
score, rank}`; the rank field is called `index` in the orchestrator's
constructor call. -/
structure Source where
  chunk_id : String
  doc_id : MVal
  filename : MVal
  content : String
  score : ℚ
  index : Nat
deriving DecidableEq

/-- Modelled from the spec: the `QueryResponse` model (`src.models.rag`,
not included in the sources) — `{answer, sources, query, model}`
(the optional `tokens_used` is always `None` here and omitted). -/
structure QueryResponse where
  answer : String
  sources : List Source
  query : String
  model : String
deriving DecidableEq

namespace RAGService

/-- `RAGService.ingest_document` (`rag_service.py`), after
`_ensure_initialized`.  The stages are supplied as oracles:
`extractRes` is the outcome of the external
`DocumentService.extract(content, filename)` for this document (text and
doc_type, or an exception); `createDocs` is the langchain splitter oracle
used by `TextSplitterTool.split`; `encode` is the embedding-model oracle
used by `EmbeddingTool.embed`; `normalize`/`idGen` parametrise
`FaissVectorStore.add` as above; `docId` is the `uuid.uuid4()` drawn at
entry.  Returns the response, the resulting store, and how many times the
vector store's `add` was invoked.  The `try`/`except` of the source is the
error-propagation of `Except`, with the caught exception converted to the
typed `status="error"` response. -/
def ingest_document
    (extractRes : Except String (String × String))
    (createDocs : String → Except String (List String))
    (encode : List String → Except String (List Emb))
    (normalize : Emb → Emb) (idGen : Nat → String)
    (docId filename : String) (store : FaissStore) :
    IngestResponse × FaissStore × Nat :=
  match extractRes with
  | .error e =>
      (⟨docId, filename, 0, "error",
        "Failed to ingest " ++ filename ++ ": " ++ e⟩, store, 0)
  | .ok (text, docType) =>
    match TextSplitterTool.split createDocs text
        [("doc_id", .str docId), ("filename", .str filename),
         ("doc_type", .str docType)] with
    | .error e =>
        (⟨docId, filename, 0, "error",
          "Failed to ingest " ++ filename ++ ": " ++ e⟩, store, 0)
    | .ok chunks =>
      if chunks = [] then
        (⟨docId, filename, 0, "error",
          "No chunks generated from document"⟩, store, 0)
      else
        let texts := chunks.map (·.content)
        match EmbeddingTool.embed encode texts with
        | .error e =>
            (⟨docId, filename, 0, "error",
              "Failed to ingest " ++ filename ++ ": " ++ e⟩, store, 0)
        | .ok embeddings =>
          let metadata := chunks.map (fun c =>
            ([("doc_id", .str docId), ("filename", .str filename),
              ("chunk_index", dictGetD c.metadata "chunk_index" (.nat 0)),
              ("chunk_total", dictGetD c.metadata "chunk_total" (.nat 0))]
              : Dict))
          let res := FaissVectorStore.add normalize idGen texts embeddings
            metadata store
          (⟨docId, filename, chunks.length, "success",
            "Successfully ingested " ++ filename ++ " into " ++
              toString chunks.length ++ " chunks"⟩, res.2, 1)

/-- The canned answer returned when retrieval yields zero candidates. -/
def insufficientInfoAnswer : String :=
  "I don't have enough information to answer this question based on the provided context."

/-- Step 5 of the query pipeline: the assembled context string,
`"\n\n".join(f"Document {i}:\n{text}" for i, result in
enumerate(selected_results, 1))`. -/
def buildContext (selected : List SearchResult) : String :=
  String.intercalate "\n\n"
    (selected.enum.map (fun p =>
      "Document " ++ toString (p.1 + 1) ++ ":\n" ++ p.2.text))

/-- A default `SearchResult`, standing for the value of an out-of-range
Python list subscript (never reached when the reranker meets its
contract). -/
def dfltResult : SearchResult := ⟨"", "", [], 0⟩

/-- Step 7 of the query pipeline: the citation list,
one `Source` per reranked candidate in final rank order, 1-based. -/
def buildSources (initial : List SearchResult)
    (reranked : List (Nat × ℚ)) : List Source :=
  reranked.enum.map (fun p =>
    let result := initial.getD p.2.1 dfltResult
    { chunk_id := result.id
      doc_id := dictGetD result.metadata "doc_id" (.str "unknown")
      filename := dictGetD result.metadata "filename" (.str "unknown")
      content :=
        if result.text.length > 500 then result.text.take 500 ++ "..."
        else result.text
      score := p.2.2
      index := p.1 + 1 })

/-- `RAGService.query` (`rag_service.py`), after `_ensure_initialized`.
`encode`/`predict` are the embedding and cross-encoder oracles;
`searchFn e k` stands for `self._vector_store.search(e, k)` on the current
store; `generate p c` stands for `self._ollama_tool.generate(prompt=p,
context=c)`; `topKRetrieve`/`topKRerank`/`ollamaModel` come from settings.
A generation failure is wrapped into a `RAGError` and propagated (the one
stage not converted into a soft response). -/
def query (encode : List String → Except String (List Emb))
    (searchFn : Emb → Nat → List SearchResult)
    (predict : List (String × String) → Except String (List ℚ))
    (generate : String → String → Except String String)
    (topKRetrieve topKRerank : Nat) (ollamaModel : String)
    (request : QueryRequest) : Except String QueryResponse :=
  match EmbeddingTool.embed_query encode request.query with
  | .error e => .error e
  | .ok queryEmbedding =>
    let initialResults := searchFn queryEmbedding topKRetrieve
    if initialResults = [] then
      .ok ⟨insufficientInfoAnswer, [], request.query, ollamaModel⟩
    else
      let documents := initialResults.map (·.text)
      match RerankerTool.rerank predict topKRerank request.query documents
          request.top_k with
      | .error e => .error e
      | .ok reranked =>
        let selectedIndices := reranked.map (·.1)
        let selectedResults :=
          selectedIndices.map (fun i => initialResults.getD i dfltResult)
        let context := buildContext selectedResults
        match generate request.query context with
        | .error e => .error ("Failed to generate answer: " ++ e)
        | .ok answer =>
            .ok ⟨answer, buildSources initialResults reranked,
              request.query, ollamaModel⟩

end RAGService

/-- One mutating call on a `FaissVectorStore`, for reasoning about
operation sequences: an `add(texts, embeddings, metadata)` (with the ids
drawn for that call) or a `delete_all()`. -/
inductive FaissOp where
  | add (idGen : Nat → String) (texts : List String)
      (embeddings : List Emb) (metadata : List Dict)
  | deleteAll

/-- Apply one operation to a FAISS store. -/
def FaissOp.apply (normalize : Emb → Emb) (s : FaissStore) :
    FaissOp → FaissStore
  | FaissOp.add idGen texts embeddings metadata =>
      (FaissVectorStore.add normalize idGen texts embeddings metadata s).2
  | FaissOp.deleteAll => FaissVectorStore.delete_all s

/-- Apply a sequence of operations, oldest first. -/
def FaissOp.applyAll (normalize : Emb → Emb) (ops : List FaissOp)
    (s : FaissStore) : FaissStore :=
  ops.foldl (fun st op => FaissOp.apply normalize st op) s

/-- An `add` call that meets the vector-store contract: one embedding and
one metadata dict per text.  (`delete_all` has no precondition.) -/
def FaissOp.WF : FaissOp → Prop
  | FaissOp.add _ texts embeddings metadata =>
      embeddings.length = texts.length ∧ metadata.length = texts.length
  | FaissOp.deleteAll => True

instance : DecidablePred FaissOp.WF := fun op => by
  cases op with
  | add idGen texts embeddings metadata => exact instDecidableAnd
  | deleteAll => exact instDecidableTrue

/-- The FAISS store's structural invariant: the three side tables are
exactly as long as the native index (`ntotal`). -/
def FaissStore.Consistent (s : FaissStore) : Prop :=
  s.texts.length = s.vecs.length ∧ s.metadata.length = s.vecs.length ∧
    s.ids.length = s.vecs.length

instance : DecidablePred FaissStore.Consistent := fun s => instDecidableAnd

/-- The per-instance state of `RAGService` that the claims touch: the
one-way initialization flag and the vector store (FAISS backend). -/
structure RAGState where
  initialized : Bool
  store : FaissStore
deriving DecidableEq

/-- A freshly constructed `RAGService`: `self._initialized = False`. -/
def RAGState.fresh : RAGState := ⟨false, FaissStore.empty⟩

/-- Modelled from the spec: the health payload of
`RAGService.health_check` (`{status, ollama, vector_store}` as strings). -/
structure HealthReport where
  status : String
  ollama : String
  vector_store : String
deriving DecidableEq

namespace RAGService

/-- `RAGService._ensure_initialized` (`rag_service.py`): on the first
call, reads the embedder's dimension and initializes the vector store
(a fresh store; opportunistic snapshot loading is out of scope), then
latches the flag; afterwards a no-op. -/
def ensure_initialized (s : RAGState) : RAGState :=
  if s.initialized then s else ⟨true, FaissStore.empty⟩

/-- `RAGService.ingest_document` as a transition on the service state:
`_ensure_initialized` first, then the pipeline against the store. -/
def ingestOp (extractRes : Except String (String × String))
    (createDocs : String → Except String (List String))
    (encode : List String → Except String (List Emb))
    (normalize : Emb → Emb) (idGen : Nat → String)
    (docId filename : String) (s : RAGState) :
    IngestResponse × RAGState :=
  let s1 := ensure_initialized s
  let res := ingest_document extractRes createDocs encode normalize idGen
    docId filename s1.store
  (res.1, ⟨s1.initialized, res.2.1⟩)

/-- `RAGService.query` as a transition on the service state:
`_ensure_initialized` first; the query pipeline reads the store but never
mutates it. -/
def queryOp (encode : List String → Except String (List Emb))
    (qnormalize : Emb → Emb)
    (predict : List (String × String) → Except String (List ℚ))
    (generate : String → String → Except String String)
    (topKRetrieve topKRerank : Nat) (ollamaModel : String)
    (request : QueryRequest) (s : RAGState) :
    Except String QueryResponse × RAGState :=
  let s1 := ensure_initialized s
  (query encode (fun e k => FaissVectorStore.search qnormalize e k s1.store)
    predict generate topKRetrieve topKRerank ollamaModel request, s1)

/-- `RAGService.reset_index` as a transition on the service state:
`_ensure_initialized`, then `delete_all` on the store. -/
def resetOp (s : RAGState) : (String × String) × RAGState :=
  let s1 := ensure_initialized s
  (("success", "Vector store index cleared"),
    ⟨s1.initialized, FaissVectorStore.delete_all s1.store⟩)

/-- `RAGService.health_check` (`rag_service.py`): checks the generation
backend (`ollamaOk` is the outcome of `self._ollama_tool.check_health()`)
and reports the vector store as initialized exactly when the flag is set;
it does not call `_ensure_initialized`. -/
def health_check (ollamaOk : Bool) (s : RAGState) :
    HealthReport × RAGState :=
  (⟨if ollamaOk then "healthy" else "degraded",
    if ollamaOk then "connected" else "disconnected",
    if s.initialized then "initialized" else "not_initialized"⟩, s)

end RAGService

theorem fst_lt_of_mem_enum {α : Type _} {l : List α} {p : Nat × α}
    (h : p ∈ l.enum) : p.1 < l.length := by
  have h1 : p.1 ∈ l.enum.map Prod.fst := List.mem_map_of_mem Prod.fst h
  rw [List.enum_map_fst] at h1
  exact List.mem_range.mp h1

theorem filterMap_eq_map_of_all {α β : Type _} (f : α → Option β)
    (g : α → β) (l : List α) (h : ∀ a ∈ l, f a = some (g a)) :
    l.filterMap f = l.map g := by
  induction l with
  | nil => rfl
  | cons a l ih =>
    rw [List.filterMap_cons, h a (List.mem_cons_self a l), List.map_cons,
      ih (fun b hb => h b (List.mem_cons_of_mem a hb))]

theorem nodup_map_fst_take_sort (scores : List ℚ) (k : Nat) :
    (((List.insertionSort descBySnd scores.enum).take k).map
      Prod.fst).Nodup := by
  have hperm : List.Perm
      ((List.insertionSort descBySnd scores.enum).map Prod.fst)
      (scores.enum.map Prod.fst) :=
    (List.perm_insertionSort descBySnd scores.enum).map Prod.fst
  have hnd : ((List.insertionSort descBySnd scores.enum).map
      Prod.fst).Nodup := by
    refine hperm.nodup_iff.mpr ?_
    rw [List.enum_map_fst]
    exact List.nodup_range _
  exact ((List.take_sublist k _).map Prod.fst).nodup hnd

/-- C3: `rerank(query, [], k)` returns `[]` for every model oracle (the
model is never consulted), and on non-empty input — given the
cross-encoder's contract of one score per `(query, document)` pair —
`rerank` returns `min(k, len(docs))` pairs (hence at most that many),
with scores non-increasing, every `original_index` in
`[0, len(documents))`, and the indices pairwise distinct. -/
theorem c3_rerank_contract
    (predict : List (String × String) → Except String (List ℚ))
    (cfgTopK : Nat) (query : String) (documents : List String)
    (top_k : Option Nat) (scores : List ℚ) (res : List (Nat × ℚ))
    (hdocs : documents ≠ [])
    (hpred : predict (documents.map (fun d => (query, d))) = .ok scores)
    (hlen : scores.length = documents.length)
    (hres : RerankerTool.rerank predict cfgTopK query documents top_k =
      .ok res) :
    RerankerTool.rerank predict cfgTopK query [] top_k = .ok [] ∧
    res.length = min (top_k.getD cfgTopK) documents.length ∧
    List.Pairwise (fun a b : Nat × ℚ => b.2 ≤ a.2) res ∧
    (∀ p ∈ res, p.1 < documents.length) ∧
    (res.map Prod.fst).Nodup := by
  have hresval : res =
      (List.insertionSort descBySnd scores.enum).take
        (top_k.getD cfgTopK) := by
    unfold RerankerTool.rerank at hres
    rw [if_neg hdocs, hpred] at hres
    exact (Except.ok.injEq _ _).mp hres.symm
  refine ⟨?_, ?_, ?_, ?_, ?_⟩
  · unfold RerankerTool.rerank
    rw [if_pos rfl]
  · rw [hresval, List.length_take,
      (List.perm_insertionSort descBySnd scores.enum).length_eq,
      List.enum_length, hlen]
  · have hsorted : List.Pairwise descBySnd
        (List.insertionSort descBySnd scores.enum) :=
      List.sorted_insertionSort descBySnd scores.enum
    rw [hresval]
    exact (hsorted.take :)
  · intro p hp
    rw [hresval] at hp
    have h1 : p ∈ List.insertionSort descBySnd scores.enum :=
      List.mem_of_mem_take hp
    have h2 : p ∈ scores.enum :=
      (List.perm_insertionSort descBySnd scores.enum).mem_iff.mp h1
    have := fst_lt_of_mem_enum h2
    rwa [hlen] at this
  · rw [hresval]
    exact nodup_map_fst_take_sort scores _

/-- A concrete cross-encoder oracle: every pair scores 1. -/
def predictOne : List (String × String) → Except String (List ℚ) :=
  fun ps => .ok (ps.map (fun _ => (1 : ℚ)))

/-- Witness for C3 at `documents = ["a", "b"]`, `top_k = 1`. -/
theorem c3_rerank_contract_witness :
    RerankerTool.rerank predictOne 3 "q" [] (some 1) = .ok [] ∧
    [((0 : Nat), (1 : ℚ))].length = min ((some 1).getD 3)
      (["a", "b"].length) ∧
    List.Pairwise (fun a b : Nat × ℚ => b.2 ≤ a.2)
      [((0 : Nat), (1 : ℚ))] ∧
    (∀ p ∈ [((0 : Nat), (1 : ℚ))], p.1 < ["a", "b"].length) ∧
    ([((0 : Nat), (1 : ℚ))].map Prod.fst).Nodup :=
  c3_rerank_contract predictOne 3 "q" ["a", "b"] (some 1) [1, 1]
    [(0, 1)] (by decide) rfl rfl rfl

/-- C5 (amended): `embed_query(text)` returns the head of
`embed([text])` — the first element when the batch is non-empty, and the
empty embedding (not an error) when the single-text batch produces no
output. -/
theorem c5_embed_query_head
    (encode : List String → Except String (List Emb)) (text : String)
    (embs : List Emb)
    (h : EmbeddingTool.embed encode [text] = .ok embs) :
    EmbeddingTool.embed_query encode text = .ok (embs.headD ([] : Emb)) := by
  unfold EmbeddingTool.embed_query
  rw [h]
  cases embs <;> rfl

/-- A concrete embedding oracle that returns no vectors at all. -/
def encodeNone : List String → Except String (List Emb) :=
  fun _ => .ok []

/-- Counterexample to C5 as stated: when the single-text batch produces
no output, `embed_query` does not fail — it returns the empty embedding
(`embeddings[0] if embeddings else []` in the source). -/
theorem c5_counterexample :
    EmbeddingTool.embed_query encodeNone "query" = .ok ([] : Emb) ∧
    ∀ e, EmbeddingTool.embed_query encodeNone "query" ≠ .error e := by
  constructor
  · rfl
  · intro e h
    simp [EmbeddingTool.embed_query, EmbeddingTool.embed, encodeNone] at h

/-- A concrete embedding oracle returning one fixed vector per batch. -/
def encodeOne : List String → Except String (List Emb) :=
  fun _ => .ok [[(1 : ℚ), 2]]

/-- Witness for the amended C5 at a one-vector batch. -/
theorem c5_embed_query_head_witness :
    EmbeddingTool.embed_query encodeOne "q" =
      .ok (List.headD [[(1 : ℚ), 2]] ([] : Emb)) :=
  c5_embed_query_head encodeOne "q" [[(1 : ℚ), 2]] rfl

/-- A concrete langchain-splitter oracle: one document per input text. -/
def createDocsId : String → Except String (List String) :=
  fun t => .ok [t]

/-- Counterexample to C7 as stated: with `texts = []` and a supplied
metadata list of length 1 the lengths differ, yet `split_batch` returns
`[]` instead of the length-mismatch error (the empty-texts early return
precedes the check); and with non-empty texts and a supplied *empty*
metadata list (also a length mismatch) Python's `metadatas or default`
treats `[]` as falsy and silently substitutes default metadata. -/
theorem c7_counterexample :
    TextSplitterTool.split_batch createDocsId [] (some [([] : Dict)]) =
      .ok [] ∧
    TextSplitterTool.split_batch createDocsId ["ab"] (some []) =
      .ok [[⟨"ab", dictInsert (dictInsert ([] : Dict) "chunk_index"
        (.nat 0)) "chunk_total" (.nat 1)⟩]] := by
  constructor
  · rfl
  · rfl

theorem mapM_zip_map_const {α β γ : Type} (g : α → β)
    (f : α → β → Except String γ) (l : List α) :
    (l.zip (l.map g)).mapM (fun p => f p.1 p.2) =
      l.mapM (fun a => f a (g a)) := by
  induction l with
  | nil => rfl
  | cons a l ih =>
    rw [List.map_cons, List.zip_cons_cons, List.mapM_cons, List.mapM_cons,
      ih]

/-- C7 (amended): `split_batch` fails with the length-mismatch error when
`texts` is non-empty and a *non-empty* metadata list of different length
is supplied; when no metadata list is supplied it applies `split`
independently to each text with empty metadata (empty `texts` returns
`[]` before any length check, and an empty supplied metadata list is
replaced by per-text empty metadata — see the counterexample). -/
theorem c7_split_batch_contract
    (createDocs : String → Except String (List String))
    (texts : List String) (ms : List Dict)
    (htexts : texts ≠ []) (hms : ms ≠ [])
    (hlen : ms.length ≠ texts.length) :
    TextSplitterTool.split_batch createDocs texts (some ms) =
      .error "metadatas must have same length as texts" ∧
    TextSplitterTool.split_batch createDocs texts none =
      texts.mapM (fun t => TextSplitterTool.split createDocs t
        ([] : Dict)) := by
  constructor
  · unfold TextSplitterTool.split_batch
    rw [if_neg htexts]
    match ms, hms with
    | m :: ms', _ =>
      simp only []
      rw [if_pos hlen]
  · unfold TextSplitterTool.split_batch
    rw [if_neg htexts]
    simp only []
    rw [if_neg (by rw [List.length_map]; exact fun h => absurd rfl h)]
    exact mapM_zip_map_const (fun _ => ([] : Dict))
      (fun t m => TextSplitterTool.split createDocs t m) texts

/-- Witness for the amended C7: two texts with one metadata dict. -/
theorem c7_split_batch_contract_witness :
    TextSplitterTool.split_batch createDocsId ["a", "b"]
      (some [([] : Dict)]) =
      .error "metadatas must have same length as texts" ∧
    TextSplitterTool.split_batch createDocsId ["a", "b"] none =
      ["a", "b"].mapM (fun t => TextSplitterTool.split createDocsId t
        ([] : Dict)) :=
  c7_split_batch_contract createDocsId ["a", "b"] [([] : Dict)]
    (by decide) (by decide) (by decide)

/-- C6: for non-whitespace text (given the splitter oracle's output),
`split` stamps chunks with `chunk_index` exactly `0..chunk_total-1`,
`chunk_total` equal to the number of chunks produced by that call, and
every other metadata key looked up as in the caller-supplied dict; empty
and whitespace-only input yield `[]` without error. -/
theorem c6_split_contract
    (createDocs : String → Except String (List String))
    (text : String) (md : Dict) (cs : List String) (res : List ChunkD)
    (wtext : String)
    (htext : stripStr text ≠ "")
    (hcs : createDocs text = .ok cs)
    (hres : TextSplitterTool.split createDocs text md = .ok res)
    (hw : stripStr wtext = "") :
    TextSplitterTool.split createDocs "" md = .ok [] ∧
    TextSplitterTool.split createDocs wtext md = .ok [] ∧
    res.length = cs.length ∧
    (∀ j c, res[j]? = some c →
      dictGet c.metadata "chunk_index" = some (.nat j) ∧
      dictGet c.metadata "chunk_total" = some (.nat res.length) ∧
      ∀ k, k ≠ "chunk_index" → k ≠ "chunk_total" →
        dictGet c.metadata k = dictGet md k) := by
  have hcond : (text = "" || stripStr text = "") = false := by
    have h1 : text ≠ "" := by
      intro h
      exact htext (by rw [h]; rfl)
    simp [h1, htext]
  have hresval : res = cs.enum.map (fun p =>
      { content := p.2
        metadata :=
          dictInsert (dictInsert md "chunk_index" (.nat p.1))
            "chunk_total" (.nat cs.length) : ChunkD }) := by
    unfold TextSplitterTool.split at hres
    rw [hcond] at hres
    simp only [Bool.false_eq_true, if_false, hcs] at hres
    exact (Except.ok.injEq _ _).mp hres.symm
  have hlen : res.length = cs.length := by
    rw [hresval, List.length_map, List.enum_length]
  refine ⟨?_, ?_, hlen, ?_⟩
  · unfold TextSplitterTool.split
    rw [if_pos (by simp)]
  · unfold TextSplitterTool.split
    rw [if_pos (by simp [hw])]
  · intro j c hc
    rw [hresval, List.getElem?_map, List.getElem?_enum] at hc
    cases hcs' : cs[j]? with
    | none => rw [hcs'] at hc; exact absurd hc (by simp)
    | some a =>
      rw [hcs'] at hc
      have hc2 : ChunkD.mk a
          (dictInsert (dictInsert md "chunk_index" (.nat j))
            "chunk_total" (.nat cs.length)) = c := by
        simpa using hc
      have hmeta : c.metadata =
          dictInsert (dictInsert md "chunk_index" (.nat j))
            "chunk_total" (.nat cs.length) := by
        rw [← hc2]
      refine ⟨?_, ?_, ?_⟩
      · rw [hmeta, dictGet_insert_other _ _ _ _ (by decide),
          dictGet_insert_same]
      · rw [hmeta, dictGet_insert_same, hlen]
      · intro k hk1 hk2
        rw [hmeta, dictGet_insert_other _ _ _ _ hk2,
          dictGet_insert_other _ _ _ _ hk1]

/-- Witness for C6 at `text = "hello"` with a one-chunk oracle. -/
theorem c6_split_contract_witness :
    TextSplitterTool.split createDocsId "" [("k", .str "v")] = .ok [] ∧
    TextSplitterTool.split createDocsId "   " [("k", .str "v")] =
      .ok [] ∧
    ([⟨"hello", dictInsert (dictInsert [("k", .str "v")] "chunk_index"
      (.nat 0)) "chunk_total" (.nat 1)⟩] : List ChunkD).length =
      ["hello"].length ∧
    (∀ j c, ([⟨"hello", dictInsert (dictInsert [("k", .str "v")]
        "chunk_index" (.nat 0)) "chunk_total" (.nat 1)⟩] :
        List ChunkD)[j]? = some c →
      dictGet c.metadata "chunk_index" = some (.nat j) ∧
      dictGet c.metadata "chunk_total" = some (.nat ([⟨"hello",
        dictInsert (dictInsert [("k", .str "v")] "chunk_index" (.nat 0))
          "chunk_total" (.nat 1)⟩] : List ChunkD).length) ∧
      ∀ k, k ≠ "chunk_index" → k ≠ "chunk_total" →
        dictGet c.metadata k = dictGet [("k", .str "v")] k) :=
  c6_split_contract createDocsId "hello" [("k", .str "v")] ["hello"]
    [⟨"hello", dictInsert (dictInsert [("k", .str "v")] "chunk_index"
      (.nat 0)) "chunk_total" (.nat 1)⟩] "   " (by decide) rfl rfl rfl

/-- C9: starting from an empty FAISS store, any sequence of contractual
`add` calls (one embedding and one metadata dict per text) and
`delete_all` calls leaves the three side tables exactly as long as the
native index, so every index position can be resolved to a consistent
`(id, text, metadata)` triple. -/
theorem c9_faiss_side_tables_consistent
    (normalize : Emb → Emb) (ops : List FaissOp)
    (hwf : ∀ op ∈ ops, op.WF) :
    (FaissOp.applyAll normalize ops FaissStore.empty).Consistent := by
  have step : ∀ (s : FaissStore) (op : FaissOp), s.Consistent → op.WF →
      (FaissOp.apply normalize s op).Consistent := by
    intro s op hs hop
    cases op with
    | add idGen texts embeddings metadata =>
      simp only [FaissOp.apply, FaissVectorStore.add]
      by_cases ht : texts = []
      · rw [if_pos ht]
        exact hs
      · rw [if_neg ht]
        refine ⟨?_, ?_, ?_⟩
        · simp only [List.length_append, List.length_map]
          rw [hs.1, hop.1]
        · simp only [List.length_append, List.length_map]
          rw [hs.2.1, hop.1, hop.2]
        · simp only [List.length_append, List.length_map,
            List.length_range]
          rw [hs.2.2, hop.1]
    | deleteAll =>
      exact ⟨rfl, rfl, rfl⟩
  have main : ∀ (ops' : List FaissOp) (s : FaissStore), s.Consistent →
      (∀ op ∈ ops', op.WF) →
      (FaissOp.applyAll normalize ops' s).Consistent := by
    intro ops'
    induction ops' with
    | nil => intro s hs _; exact hs
    | cons op ops' ih =>
      intro s hs hwf'
      unfold FaissOp.applyAll
      rw [List.foldl_cons]
      exact ih _ (step s op hs (hwf' op (List.mem_cons_self op ops')))
        (fun o ho => hwf' o (List.mem_cons_of_mem op ho))
  exact main ops FaissStore.empty ⟨rfl, rfl, rfl⟩ hwf

/-- A concrete id generator for witnesses. -/
def idGen0 : Nat → String := fun n => "id" ++ toString n

/-- Witness for C9: an add, a full reset, and another add. -/
theorem c9_faiss_side_tables_consistent_witness :
    (∀ op ∈ [FaissOp.add idGen0 ["t"] [[(1 : ℚ)]] [([] : Dict)],
      FaissOp.deleteAll,
      FaissOp.add idGen0 ["a", "b"] [[(1 : ℚ)], [(2 : ℚ)]]
        [([] : Dict), ([] : Dict)]], op.WF) ∧
    (FaissOp.applyAll (fun e => e)
      [FaissOp.add idGen0 ["t"] [[(1 : ℚ)]] [([] : Dict)],
       FaissOp.deleteAll,
       FaissOp.add idGen0 ["a", "b"] [[(1 : ℚ)], [(2 : ℚ)]]
         [([] : Dict), ([] : Dict)]]
      FaissStore.empty).Consistent := by
  have hwf : ∀ op ∈ [FaissOp.add idGen0 ["t"] [[(1 : ℚ)]] [([] : Dict)],
      FaissOp.deleteAll,
      FaissOp.add idGen0 ["a", "b"] [[(1 : ℚ)], [(2 : ℚ)]]
        [([] : Dict), ([] : Dict)]], op.WF := by
    intro op hop
    simp only [List.mem_cons, List.not_mem_nil, or_false] at hop
    rcases hop with h | h | h <;> subst h
    · exact ⟨rfl, rfl⟩
    · exact trivial
    · exact ⟨rfl, rfl⟩
  exact ⟨hwf, c9_faiss_side_tables_consistent (fun e => e) _ hwf⟩

theorem scored_fst_lt (vecs : List Emb) (qn : Emb) (p : Nat × ℚ)
    (hp : p ∈ vecs.enum.map (fun e => (e.1, dotProduct e.2 qn))) :
    p.1 < vecs.length := by
  rcases List.mem_map.mp hp with ⟨e, he, hep⟩
  have := fst_lt_of_mem_enum he
  rw [← hep]
  exact this

theorem faiss_search_eq_map (qnormalize : Emb → Emb) (q : Emb)
    (top_k : Nat) (s : FaissStore) (hcons : s.Consistent) :
    FaissVectorStore.search qnormalize q top_k s =
      ((List.insertionSort descBySnd (s.vecs.enum.map
          (fun e => (e.1, dotProduct e.2 (qnormalize q))))).take
        (min top_k s.vecs.length)).map
        (fun p => ({ id := s.ids.getD p.1 ""
                     text := s.texts.getD p.1 ""
                     metadata := s.metadata.getD p.1 ([] : Dict)
                     score := p.2 } : SearchResult)) := by
  by_cases hn : s.vecs.length = 0
  · have hvecs : s.vecs = [] := List.length_eq_zero.mp hn
    unfold FaissVectorStore.search
    rw [if_pos hn, hvecs]
    simp
  · unfold FaissVectorStore.search FaissVectorStore.indexFlatIPSearch
    rw [if_neg hn]
    apply filterMap_eq_map_of_all
    intro p hp
    have hmem : p ∈ s.vecs.enum.map
        (fun e => (e.1, dotProduct e.2 (qnormalize q))) :=
      (List.perm_insertionSort descBySnd _).mem_iff.mp
        (List.mem_of_mem_take hp)
    have hlt : p.1 < s.vecs.length := scored_fst_lt _ _ _ hmem
    rw [if_pos (by rw [hcons.1]; exact hlt)]

/-- C2: on the FAISS backend, `search` over a consistent store returns
exactly `min top_k N` results with non-increasing scores, and `[]` on an
empty or freshly reset store; on the Chroma backend, `search` returns
exactly `min top_k N` results with non-increasing scores, and `[]` on an
empty or freshly reset collection. -/
theorem c2_search_contract (qnormalize : Emb → Emb) (q : Emb)
    (top_k : Nat) (s : FaissStore) (dist : Emb → Emb → ℚ) (qc : Emb)
    (kc : Nat) (c : ChromaStore) (hcons : s.Consistent) :
    (FaissVectorStore.search qnormalize q top_k s).length =
      min top_k s.vecs.length ∧
    List.Pairwise (fun r1 r2 : SearchResult => r2.score ≤ r1.score)
      (FaissVectorStore.search qnormalize q top_k s) ∧
    FaissVectorStore.search qnormalize q top_k FaissStore.empty = [] ∧
    FaissVectorStore.search qnormalize q top_k
      (FaissVectorStore.delete_all s) = [] ∧
    (ChromaVectorStore.search dist qc kc c).length =
      min kc c.records.length ∧
    List.Pairwise (fun r1 r2 : SearchResult => r2.score ≤ r1.score)
      (ChromaVectorStore.search dist qc kc c) ∧
    ChromaVectorStore.search dist qc kc ChromaStore.empty = [] ∧
    ChromaVectorStore.search dist qc kc
      (ChromaVectorStore.delete_all c) = [] := by
  have hmap := faiss_search_eq_map qnormalize q top_k s hcons
  have hchroma_empty : ChromaVectorStore.search dist qc kc
      ChromaStore.empty = [] := by
    unfold ChromaVectorStore.search ChromaVectorStore.collectionQuery
      ChromaStore.empty
    simp [List.insertionSort]
  refine ⟨?_, ?_, rfl, rfl, ?_, ?_, hchroma_empty, hchroma_empty⟩
  · rw [hmap, List.length_map, List.length_take,
      (List.perm_insertionSort descBySnd _).length_eq, List.length_map,
      List.enum_length]
    omega
  · rw [hmap]
    apply List.pairwise_map.mpr
    have hsorted : List.Pairwise descBySnd
        (List.insertionSort descBySnd (s.vecs.enum.map
          (fun e => (e.1, dotProduct e.2 (qnormalize q))))) :=
      List.sorted_insertionSort descBySnd _
    exact (hsorted.take :).imp (fun h => h)
  · unfold ChromaVectorStore.search ChromaVectorStore.collectionQuery
    rw [List.length_map, List.length_map, List.length_take,
      (List.perm_insertionSort (ChromaVectorStore.ascByDist dist qc)
        c.records).length_eq]
  · unfold ChromaVectorStore.search ChromaVectorStore.collectionQuery
    apply List.pairwise_map.mpr
    apply List.pairwise_map.mpr
    have hsorted : List.Pairwise (ChromaVectorStore.ascByDist dist qc)
        (List.insertionSort (ChromaVectorStore.ascByDist dist qc)
          c.records) :=
      List.sorted_insertionSort (ChromaVectorStore.ascByDist dist qc)
        c.records
    exact (hsorted.take :).imp (fun h => by
      simpa using sub_le_sub_left h 1)

/-- A concrete two-record FAISS store for witnesses. -/
def s0 : FaissStore :=
  ⟨[[(1 : ℚ)], [(2 : ℚ)]], ["a", "b"], [([] : Dict), ([] : Dict)],
    ["i", "j"]⟩

/-- A concrete one-record Chroma collection for witnesses. -/
def c0 : ChromaStore := ⟨[⟨"cid", "ct", ([] : Dict), [(1 : ℚ)]⟩]⟩

/-- A concrete distance kernel for witnesses. -/
def distZero : Emb → Emb → ℚ := fun _ _ => 0

/-- Witness for C2 at a consistent two-record FAISS store and a
one-record Chroma collection. -/
theorem c2_search_contract_witness :
    FaissStore.Consistent s0 ∧
    ((FaissVectorStore.search (fun e => e) [(1 : ℚ)] 5 s0).length =
      min 5 s0.vecs.length ∧
    List.Pairwise (fun r1 r2 : SearchResult => r2.score ≤ r1.score)
      (FaissVectorStore.search (fun e => e) [(1 : ℚ)] 5 s0) ∧
    FaissVectorStore.search (fun e => e) [(1 : ℚ)] 5 FaissStore.empty =
      [] ∧
    FaissVectorStore.search (fun e => e) [(1 : ℚ)] 5
      (FaissVectorStore.delete_all s0) = [] ∧
    (ChromaVectorStore.search distZero [(1 : ℚ)] 3 c0).length =
      min 3 c0.records.length ∧
    List.Pairwise (fun r1 r2 : SearchResult => r2.score ≤ r1.score)
      (ChromaVectorStore.search distZero [(1 : ℚ)] 3 c0) ∧
    ChromaVectorStore.search distZero [(1 : ℚ)] 3 ChromaStore.empty =
      [] ∧
    ChromaVectorStore.search distZero [(1 : ℚ)] 3
      (ChromaVectorStore.delete_all c0) = []) :=
  ⟨by decide,
    c2_search_contract (fun e => e) [(1 : ℚ)] 5 s0 distZero [(1 : ℚ)] 3
      c0 (by decide)⟩

/-- C1: the vector store's `add` is invoked at most once per ingested
document, and exactly the failure of any pipeline stage — text
extraction, chunking, zero chunks, or embedding — yields the typed
`status="error"` response with `chunk_count = 0` carrying the error
message, with the store left unchanged; `add` runs only after the whole
embedding batch has succeeded. -/
theorem c1_ingest_error_boundary
    (extractRes : Except String (String × String))
    (createDocs : String → Except String (List String))
    (encode : List String → Except String (List Emb))
    (normalize : Emb → Emb) (idGen : Nat → String)
    (docId filename : String) (store : FaissStore) :
    (RAGService.ingest_document extractRes createDocs encode normalize
      idGen docId filename store).2.2 ≤ 1 ∧
    (∀ e, extractRes = .error e →
      RAGService.ingest_document extractRes createDocs encode normalize
        idGen docId filename store =
      (⟨docId, filename, 0, "error",
        "Failed to ingest " ++ filename ++ ": " ++ e⟩, store, 0)) ∧
    (∀ text docType e, extractRes = .ok (text, docType) →
      TextSplitterTool.split createDocs text
        [("doc_id", .str docId), ("filename", .str filename),
         ("doc_type", .str docType)] = .error e →
      RAGService.ingest_document extractRes createDocs encode normalize
        idGen docId filename store =
      (⟨docId, filename, 0, "error",
        "Failed to ingest " ++ filename ++ ": " ++ e⟩, store, 0)) ∧
    (∀ text docType, extractRes = .ok (text, docType) →
      TextSplitterTool.split createDocs text
        [("doc_id", .str docId), ("filename", .str filename),
         ("doc_type", .str docType)] = .ok [] →
      RAGService.ingest_document extractRes createDocs encode normalize
        idGen docId filename store =
      (⟨docId, filename, 0, "error",
        "No chunks generated from document"⟩, store, 0)) ∧
    (∀ text docType chunks e, extractRes = .ok (text, docType) →
      TextSplitterTool.split createDocs text
        [("doc_id", .str docId), ("filename", .str filename),
         ("doc_type", .str docType)] = .ok chunks →
      chunks ≠ [] →
      encode (chunks.map (·.content)) = .error e →
      RAGService.ingest_document extractRes createDocs encode normalize
        idGen docId filename store =
      (⟨docId, filename, 0, "error",
        "Failed to ingest " ++ filename ++ ": " ++
          ("Failed to generate embeddings: " ++ e)⟩, store, 0)) ∧
    ((RAGService.ingest_document extractRes createDocs encode normalize
        idGen docId filename store).2.2 = 1 →
      ∃ text docType chunks embs,
        extractRes = .ok (text, docType) ∧
        TextSplitterTool.split createDocs text
          [("doc_id", .str docId), ("filename", .str filename),
           ("doc_type", .str docType)] = .ok chunks ∧
        chunks ≠ [] ∧
        EmbeddingTool.embed encode (chunks.map (·.content)) =
          .ok embs ∧
        (RAGService.ingest_document extractRes createDocs encode
          normalize idGen docId filename store).1.status =
          "success") := by
  have hmain : ∀ (r : IngestResponse × FaissStore × Nat),
      r = RAGService.ingest_document extractRes createDocs encode
        normalize idGen docId filename store →
      (r.2.2 ≤ 1 ∧
        (r.2.2 = 1 → ∃ text docType chunks embs,
          extractRes = .ok (text, docType) ∧
          TextSplitterTool.split createDocs text
            [("doc_id", .str docId), ("filename", .str filename),
             ("doc_type", .str docType)] = .ok chunks ∧
          chunks ≠ [] ∧
          EmbeddingTool.embed encode (chunks.map (·.content)) =
            .ok embs ∧
          r.1.status = "success")) := by
    intro r hr
    unfold RAGService.ingest_document at hr
    cases hext : extractRes with
    | error e =>
      rw [hext] at hr
      subst hr
      exact ⟨Nat.zero_le 1, fun h => absurd h (by simp)⟩
    | ok p =>
      obtain ⟨text, docType⟩ := p
      rw [hext] at hr
      dsimp only at hr
      cases hsplit : TextSplitterTool.split createDocs text
          [("doc_id", .str docId), ("filename", .str filename),
           ("doc_type", .str docType)] with
      | error e =>
        rw [hsplit] at hr
        subst hr
        exact ⟨Nat.zero_le 1, fun h => absurd h (by simp)⟩
      | ok chunks =>
        rw [hsplit] at hr
        dsimp only at hr
        by_cases hc : chunks = []
        · rw [if_pos hc] at hr
          subst hr
          exact ⟨Nat.zero_le 1, fun h => absurd h (by simp)⟩
        · rw [if_neg hc] at hr
          cases hembed : EmbeddingTool.embed encode
              (chunks.map (·.content)) with
          | error e =>
            rw [hembed] at hr
            subst hr
            exact ⟨Nat.zero_le 1, fun h => absurd h (by simp)⟩
          | ok embs =>
            rw [hembed] at hr
            subst hr
            exact ⟨le_refl 1, fun _ =>
              ⟨text, docType, chunks, embs, rfl, hsplit, hc, hembed,
                rfl⟩⟩
  refine ⟨(hmain _ rfl).1, ?_, ?_, ?_, ?_, (hmain _ rfl).2⟩
  · intro e he
    unfold RAGService.ingest_document
    rw [he]
  · intro text docType e h1 h2
    unfold RAGService.ingest_document
    rw [h1]
    dsimp only
    rw [h2]
  · intro text docType h1 h2
    unfold RAGService.ingest_document
    rw [h1]
    dsimp only
    rw [h2]
    rfl
  · intro text docType chunks e h1 h2 hc h3
    have htexts : chunks.map (·.content) ≠ [] := by
      simpa using hc
    have hembed : EmbeddingTool.embed encode (chunks.map (·.content)) =
        .error ("Failed to generate embeddings: " ++ e) := by
      unfold EmbeddingTool.embed
      rw [if_neg htexts, h3]
    unfold RAGService.ingest_document
    rw [h1]
    dsimp only
    rw [h2]
    dsimp only
    rw [if_neg hc, hembed]

/-- Witness for C1: a failing extraction yields the typed error response
and leaves the concrete store untouched. -/
theorem c1_ingest_error_boundary_witness :
    RAGService.ingest_document (Except.error "boom") createDocsId
      encodeOne (fun e => e) idGen0 "d1" "f.txt" s0 =
    (⟨"d1", "f.txt", 0, "error",
      "Failed to ingest " ++ "f.txt" ++ ": " ++ "boom"⟩, s0, 0) :=
  (c1_ingest_error_boundary (Except.error "boom") createDocsId encodeOne
    (fun e => e) idGen0 "d1" "f.txt" s0).2.1 "boom" rfl

/-- C4: when retrieval returns zero candidates, `query` short-circuits to
the canned insufficient-information answer with `sources = []`, for
*every* reranker oracle and generation oracle — neither is invoked. -/
theorem c4_query_zero_candidates
    (encode : List String → Except String (List Emb))
    (searchFn : Emb → Nat → List SearchResult)
    (predict : List (String × String) → Except String (List ℚ))
    (generate : String → String → Except String String)
    (topKRetrieve topKRerank : Nat) (ollamaModel : String)
    (request : QueryRequest) (qemb : Emb)
    (henc : EmbeddingTool.embed_query encode request.query = .ok qemb)
    (hempty : searchFn qemb topKRetrieve = []) :
    RAGService.query encode searchFn predict generate topKRetrieve
      topKRerank ollamaModel request =
    .ok ⟨RAGService.insufficientInfoAnswer, [], request.query,
      ollamaModel⟩ := by
  unfold RAGService.query
  rw [henc]
  dsimp only
  rw [hempty]
  rfl

/-- A concrete search oracle standing for an empty index. -/
def searchEmpty : Emb → Nat → List SearchResult := fun _ _ => []

/-- A concrete generation oracle for witnesses. -/
def genOk : String → String → Except String String :=
  fun _ _ => .ok "generated answer"

/-- Witness for C4 at a concrete query against an empty index. -/
theorem c4_query_zero_candidates_witness :
    RAGService.query encodeOne searchEmpty predictOne genOk 5 3
      "llama3" ⟨"what?", none⟩ =
    .ok ⟨RAGService.insufficientInfoAnswer, [], ("what?" : String),
      ("llama3" : String)⟩ :=
  c4_query_zero_candidates encodeOne searchEmpty predictOne genOk 5 3
    "llama3" ⟨"what?", none⟩ [(1 : ℚ), 2] rfl rfl

/-- C10: `health_check` never mutates the service state and does not
trigger the `Uninitialized → Initialized` transition; it reports the
vector store as initialized exactly when the flag is already set (false
on a fresh instance), whereas `ingest`, `query` and `reset` all leave the
service initialized. -/
theorem c10_health_check_frame (ollamaOk : Bool) (s : RAGState)
    (extractRes : Except String (String × String))
    (createDocs : String → Except String (List String))
    (encode : List String → Except String (List Emb))
    (normalize qnormalize : Emb → Emb) (idGen : Nat → String)
    (docId filename : String)
    (predict : List (String × String) → Except String (List ℚ))
    (generate : String → String → Except String String)
    (topKRetrieve topKRerank : Nat) (ollamaModel : String)
    (request : QueryRequest) :
    (RAGService.health_check ollamaOk s).2 = s ∧
    ((RAGService.health_check ollamaOk s).1.vector_store =
      "initialized" ↔ s.initialized = true) ∧
    (RAGService.health_check ollamaOk RAGState.fresh).1.vector_store =
      "not_initialized" ∧
    (RAGService.ingestOp extractRes createDocs encode normalize idGen
      docId filename s).2.initialized = true ∧
    (RAGService.queryOp encode qnormalize predict generate topKRetrieve
      topKRerank ollamaModel request s).2.initialized = true ∧
    (RAGService.resetOp s).2.initialized = true := by
  have hens : (RAGService.ensure_initialized s).initialized = true := by
    unfold RAGService.ensure_initialized
    by_cases h : s.initialized
    · rw [if_pos h]; exact h
    · rw [if_neg h]
  refine ⟨rfl, ?_, rfl, hens, hens, hens⟩
  unfold RAGService.health_check
  by_cases h : s.initialized
  · rw [h]
    simp
  · simp only [Bool.not_eq_true] at h
    rw [h]
    simp

/-- C8: on the successful query path, the response's sources are exactly
one citation per reranked candidate, in final rank order with 1-based
rank positions; each citation resolves through the candidate's
`original_index` back to its search result for id, doc_id, filename and
text, carries the reranker's score, and its content is the text itself
when at most 500 characters and the first 500 characters followed by an
ellipsis otherwise. -/
theorem c8_query_citations
    (encode : List String → Except String (List Emb))
    (searchFn : Emb → Nat → List SearchResult)
    (predict : List (String × String) → Except String (List ℚ))
    (generate : String → String → Except String String)
    (topKRetrieve topKRerank : Nat) (ollamaModel : String)
    (request : QueryRequest) (qemb : Emb)
    (initial : List SearchResult) (reranked : List (Nat × ℚ))
    (ans : String)
    (henc : EmbeddingTool.embed_query encode request.query = .ok qemb)
    (hinit : searchFn qemb topKRetrieve = initial)
    (hne : initial ≠ [])
    (hrr : RerankerTool.rerank predict topKRerank request.query
      (initial.map (·.text)) request.top_k = .ok reranked)
    (hgen : generate request.query (RAGService.buildContext
      ((reranked.map (·.1)).map
        (fun i => initial.getD i RAGService.dfltResult))) = .ok ans) :
    RAGService.query encode searchFn predict generate topKRetrieve
      topKRerank ollamaModel request =
      .ok ⟨ans, RAGService.buildSources initial reranked,
        request.query, ollamaModel⟩ ∧
    (RAGService.buildSources initial reranked).length =
      reranked.length ∧
    (∀ (j : Nat) (pr : Nat × ℚ), reranked[j]? = some pr →
      (RAGService.buildSources initial reranked)[j]? = some
        (⟨(initial.getD pr.1 RAGService.dfltResult).id,
          dictGetD (initial.getD pr.1 RAGService.dfltResult).metadata
            "doc_id" (.str "unknown"),
          dictGetD (initial.getD pr.1 RAGService.dfltResult).metadata
            "filename" (.str "unknown"),
          (if (initial.getD pr.1 RAGService.dfltResult).text.length >
              500 then
            (initial.getD pr.1 RAGService.dfltResult).text.take 500 ++
              "..."
          else (initial.getD pr.1 RAGService.dfltResult).text),
          pr.2, j + 1⟩ : Source)) := by
  refine ⟨?_, ?_, ?_⟩
  · unfold RAGService.query
    rw [henc]
    dsimp only
    rw [hinit, if_neg hne]
    try dsimp only
    rw [hrr]
    try dsimp only
    rw [hgen]
  · unfold RAGService.buildSources
    rw [List.length_map, List.enum_length]
  · intro j pr hj
    unfold RAGService.buildSources
    rw [List.getElem?_map, List.getElem?_enum, hj]
    rfl

/-- A concrete search oracle standing for a one-record index whose sole
text is longer than 500 characters. -/
def searchOne : Emb → Nat → List SearchResult :=
  fun _ _ => [⟨"cid1", String.mk (List.replicate 600 'x'),
    [("doc_id", .str "d9"), ("filename", .str "f9")], (1 : ℚ)⟩]

/-- Witness for C8: one retrieved candidate, reranked to rank 1, with
content truncated to 500 characters plus an ellipsis. -/
theorem c8_query_citations_witness :
    RAGService.query encodeOne searchOne predictOne genOk 5 3 "llama3"
      ⟨"q?", none⟩ =
      .ok ⟨"generated answer",
        RAGService.buildSources (searchOne [(1 : ℚ), 2] 5) [(0, 1)],
        ("q?" : String), ("llama3" : String)⟩ ∧
    (RAGService.buildSources (searchOne [(1 : ℚ), 2] 5)
      [(0, 1)]).length = ([((0 : Nat), (1 : ℚ))] : List (Nat × ℚ)).length ∧
    (∀ (j : Nat) (pr : Nat × ℚ),
      ([((0 : Nat), (1 : ℚ))] : List (Nat × ℚ))[j]? = some pr →
      (RAGService.buildSources (searchOne [(1 : ℚ), 2] 5)
        [(0, 1)])[j]? = some
        (⟨((searchOne [(1 : ℚ), 2] 5).getD pr.1
            RAGService.dfltResult).id,
          dictGetD ((searchOne [(1 : ℚ), 2] 5).getD pr.1
            RAGService.dfltResult).metadata "doc_id" (.str "unknown"),
          dictGetD ((searchOne [(1 : ℚ), 2] 5).getD pr.1
            RAGService.dfltResult).metadata "filename"
            (.str "unknown"),
          (if ((searchOne [(1 : ℚ), 2] 5).getD pr.1
              RAGService.dfltResult).text.length > 500 then
            ((searchOne [(1 : ℚ), 2] 5).getD pr.1
              RAGService.dfltResult).text.take 500 ++ "..."
          else ((searchOne [(1 : ℚ), 2] 5).getD pr.1
            RAGService.dfltResult).text),
          pr.2, j + 1⟩ : Source)) :=
  c8_query_citations encodeOne searchOne predictOne genOk 5 3 "llama3"
    ⟨"q?", none⟩ [(1 : ℚ), 2] (searchOne [(1 : ℚ), 2] 5) [(0, 1)]
    "generated answer" rfl rfl (by simp [searchOne]) (by rfl) rfl
